import Mathlib

/-!
Verification of the `connect-eaas-core` validation pipeline and capability
metadata model, shallowly embedded from
`src/connect/eaas/core/validations.py` and (for the decorator model, whose
implementation file is not in `src/`) from the repository's tests in
`src/tests/connect/eaas/core/test_extension.py`.

Python values that the validators inspect (strings, booleans, integers,
`None`) are modelled by `PyVal`; YAML documents by `Yaml`; validation
findings by `ValidationItem` (severity is the literal string `"ERROR"` or
`"WARNING"`, exactly as in the source).  Expected Python exceptions that can
escape a validator are modelled by returning `Except PyErr _`.
-/

set_option maxHeartbeats 1000000

/-- One validation finding, mirroring `ValidationItem(level, message, ...)`.
The code-context location argument comes from the external collaborator
`get_code_context` and carries no validated content, so it is omitted. -/
structure ValidationItem where
  severity : String
  message : String
deriving DecidableEq, Repr

/-- Result of one validator, mirroring `ValidationResult(messages, must_halt)`.
Context patches are modelled per validator where a claim needs them. -/
structure ValidationResult where
  messages : List ValidationItem
  must_halt : Bool
deriving DecidableEq, Repr

/-- Python exceptions that may escape a validator. -/
inductive PyErr where
  | keyError (k : String)
  | typeError
  | attributeError
deriving DecidableEq, Repr

/-- A Python value as it appears in a declared variable entry. -/
inductive PyVal where
  | str (s : String)
  | int (n : Int)
  | bool (b : Bool)
  | none
deriving DecidableEq, Repr

/-- `isinstance(v, str)`. -/
def PyVal.isStr : PyVal → Bool
  | .str _ => true
  | _ => false

/-- `isinstance(v, bool)` (in Python, `int` values are not `bool`). -/
def PyVal.isBool : PyVal → Bool
  | .bool _ => true
  | _ => false

/-- Rendering of `type(v)` used inside error messages (quote characters of
the Python rendering are omitted). -/
def PyVal.typeName : PyVal → String
  | .str _ => "str"
  | .int _ => "int"
  | .bool _ => "bool"
  | .none => "NoneType"

/-- One declared variable entry `{name?, initial_value?, secure?}`; a missing
dictionary key is `Option.none`. -/
structure VariableEntry where
  name : Option String
  initial_value : Option PyVal
  secure : Option PyVal
deriving DecidableEq, Repr

/-! ## The variable-name pattern `^[A-Za-z](?:[A-Za-z0-9_\-.]+)*$` -/

/-- The character class `[A-Za-z]`. -/
def isLeadChar (c : Char) : Bool :=
  ('A' ≤ c && c ≤ 'Z') || ('a' ≤ c && c ≤ 'z')

/-- The character class `[A-Za-z0-9_\-.]`. -/
def isNameChar (c : Char) : Bool :=
  isLeadChar c || ('0' ≤ c && c ≤ '9') || c == '_' || c == '-' || c == '.'

/-- Kleene star of a language over characters: zero or more adjacent chunks,
each in `L`. -/
inductive StarLang (L : List Char → Prop) : List Char → Prop where
  | nil : StarLang L []
  | app (xs ys : List Char) : L xs → StarLang L ys → StarLang L (xs ++ ys)

/-- `[p]+`: one or more characters satisfying `p`. -/
def PlusLang (p : Char → Bool) (xs : List Char) : Prop :=
  xs ≠ [] ∧ ∀ c ∈ xs, p c = true

/-- The language of the source pattern `^[A-Za-z](?:[A-Za-z0-9_\-.]+)*$`
(`validations.py`, `variable_name_pattern`), read off structurally: one
`[A-Za-z]` character followed by a starred group of nonempty
`[A-Za-z0-9_\-.]` runs, anchored on both sides. -/
def variable_name_pattern_lang (s : String) : Prop :=
  ∃ c cs, s.data = c :: cs ∧ isLeadChar c = true ∧ StarLang (PlusLang isNameChar) cs

/-- Executable matcher for the variable-name pattern: a leading `[A-Za-z]`
character followed by any number of `[A-Za-z0-9_\-.]` characters (the
language of the pattern `^[A-Za-z][A-Za-z0-9_\-.]*$`).  The theorem
`variable_name_match_iff_lang` proves this equal to the language of the
source pattern `^[A-Za-z](?:[A-Za-z0-9_\-.]+)*$`, so the validators below
use this matcher for `variable_name_regex.match`. -/
def variable_name_match (s : String) : Bool :=
  match s.data with
  | [] => false
  | c :: cs => isLeadChar c && cs.all isNameChar

/-! ## Message builders of `validate_variables` -/

/-- `'Invalid variable declaration: the *name* attribute is mandatory.'` -/
def nameMandatoryItem : ValidationItem :=
  ⟨"ERROR", "Invalid variable declaration: the *name* attribute is mandatory."⟩

/-- `'Duplicate variable name: the variable with name *{n}* has already been declared.'` -/
def duplicateNameItem (n : String) : ValidationItem :=
  ⟨"ERROR", "Duplicate variable name: the variable with name *" ++
    (n ++ "* has already been declared.")⟩

/-- `'Invalid variable name: the value *{n}* does not match the pattern *{p}*.'` -/
def invalidNameItem (n : String) : ValidationItem :=
  ⟨"ERROR", "Invalid variable name: the value *" ++
    (n ++ "* does not match the pattern *^[A-Za-z](?:[A-Za-z0-9_\\-.]+)*$*.")⟩

/-- `'Invalid *initial_value* attribute for variable *{n}*: must be a non-null string not *{t}*.'` -/
def invalidInitialValueItem (n : String) (v : PyVal) : ValidationItem :=
  ⟨"ERROR", "Invalid *initial_value* attribute for variable *" ++
    (n ++ ("*: must be a non-null string not *<class " ++ (v.typeName ++ ">*.")))⟩

/-- `'Invalid *secure* attribute for variable *{n}*: must be a boolean not *{t}*.'` -/
def invalidSecureItem (n : String) (v : PyVal) : ValidationItem :=
  ⟨"ERROR", "Invalid *secure* attribute for variable *" ++
    (n ++ ("*: must be a boolean not *<class " ++ (v.typeName ++ ">*.")))⟩

/-! ## `validate_variables` -/

/-- One iteration of the `for variable in variables` loop of
`validate_variables`: threads the accumulated message list and the `names`
list, in the exact order of the source (duplicate check, `names.append`,
pattern check, `initial_value` check, `secure` check; a missing name appends
its error and `continue`s). -/
def checkVariable (st : List ValidationItem × List String) (v : VariableEntry) :
    List ValidationItem × List String :=
  match v.name with
  | Option.none => (st.1 ++ [nameMandatoryItem], st.2)
  | some n =>
    let m1 := st.1 ++ (if n ∈ st.2 then [duplicateNameItem n] else [])
    let m2 := m1 ++ (if variable_name_match n then [] else [invalidNameItem n])
    let m3 := m2 ++ (match v.initial_value with
      | some pv => if pv.isStr then [] else [invalidInitialValueItem n pv]
      | Option.none => [])
    let m4 := m3 ++ (match v.secure with
      | some pv => if pv.isBool then [] else [invalidSecureItem n pv]
      | Option.none => [])
    (m4, st.2 ++ [n])

/-- The messages `validate_variables` produces for one extension class,
given the list returned by that class's `get_variables()`. -/
def validateClassVariables (vars : List VariableEntry) : List ValidationItem :=
  (vars.foldl checkVariable ([], [])).1

/-- `validate_variables`: iterates over every loaded extension class (each
given by its `get_variables()` list) and never halts. -/
def validate_variables (classes : List (List VariableEntry)) : ValidationResult :=
  ⟨classes.foldl (fun acc vars => acc ++ validateClassVariables vars) [], false⟩

/-! ## Capability metadata model (decorators)

`connect/eaas/core/decorators.py` is not part of `src/`; only its tests are
(`src/tests/connect/eaas/core/test_extension.py`).  The model below follows
the spec's description of the composable variable declarations, with the
merge direction fixed by the repository's own tests
(`test_get_anvil_key_variable_with_variables_after` and `..._before`). -/

/-- A class-level capability decorator contributing variable entries. -/
inductive Decorator where
  | vars (decl : List VariableEntry)
  | anvil_key_variable (key : String)
deriving Repr

/-- The variable entry contributed by `@anvil_key_variable(key)`
(see `test_get_anvil_key_variable`). -/
def anvilKeyEntry (key : String) : VariableEntry :=
  ⟨some key, some (PyVal.str "changeme!"), some (PyVal.bool true)⟩

/-- Modelled from the spec: missing from `src/` is
`connect/eaas/core/decorators.py`; per §3 of the spec the accumulated
variable list is extended by each decorator, entries are retained rather
than silently merged within one declaration list, and when two decorators
contribute an entry with the same name only one survives — the direction is
fixed by the repository's tests, which show that the entry already present
(contributed by the decorator applied earlier, i.e. the innermost one)
is kept and the later entry is skipped.  The names already present are
computed once, before the declared entries are appended. -/
def addVariables (cur : List VariableEntry) (decl : List VariableEntry) :
    List VariableEntry :=
  let existing := cur.filterMap VariableEntry.name
  cur ++ decl.filter (fun v =>
    match v.name with
    | some n => !existing.contains n
    | Option.none => true)

/-- Modelled from the spec: applying one decorator to the accumulated
variable list.  `@anvil_key_variable(key)` also records the key name and
contributes its secure variable entry (see `test_get_anvil_key_variable`). -/
def applyDecorator (d : Decorator) (cur : List VariableEntry) : List VariableEntry :=
  match d with
  | .vars decl => addVariables cur decl
  | .anvil_key_variable key => addVariables cur [anvilKeyEntry key]

/-- Modelled from the spec: `get_variables()` of a class written with the
given decorator list (listed top to bottom, so the last listed decorator is
applied first, as Python applies decorators bottom-up). -/
def get_variables (decorators : List Decorator) : List VariableEntry :=
  decorators.foldr applyDecorator []

/-- Dictionary view `{v['name']: v for v in get_variables()}` used by the
tests: the entry a name maps to is the last occurrence with that name. -/
def variableFor (l : List VariableEntry) (n : String) : Option VariableEntry :=
  (l.filter (fun v => v.name == some n)).getLast?

/-! ## `validate_events` and `validate_schedulables` -/

/-- One record of the authoritative event schema (`get_event_definitions`):
`{type, object_statuses}`. -/
structure EventDef where
  type : String
  object_statuses : List String
deriving DecidableEq, Repr

/-- One declared event entry `{method, event_type, statuses}` from
`get_events()`.  A `statuses=None` declaration is modelled as `[]`
(the source reads it through `event['statuses'] or []`). -/
structure EventDecl where
  method : String
  event_type : String
  statuses : List String
deriving DecidableEq, Repr

/-- One declared schedulable entry `{method, name, description}` from
`get_schedulables()`. -/
structure SchedulableDecl where
  method : String
  name : String
  description : String
deriving DecidableEq, Repr

/-- The `extension`-type class as the event/schedulable validators see it:
its declared entries and, for each method name, the parameter name list of
`inspect.signature` (which includes the implicit `self`).  Method names in a
Python class body are unique, so an association-list lookup is used. -/
structure ExtensionClass where
  events : List EventDecl
  schedulables : List SchedulableDecl
  methods : List (String × List String)
deriving DecidableEq, Repr

/-- `definitions = {d['type']: d for d in get_event_definitions(config)}`:
a Python dict comprehension keeps the last record for each type. -/
def lookupDefinition (defs : List EventDef) (t : String) : Option EventDef :=
  (defs.filter (fun d => d.type == t)).getLast?

/-- Parameter names of `inspect.signature(getattr(cls, m))`. -/
def methodParameters (cls : ExtensionClass) (m : String) : List String :=
  (cls.methods.lookup m).getD []

/-- `f'{m}({", ".join(signature.parameters)})'`. -/
def signatureString (m : String) (params : List String) : String :=
  m ++ ("(" ++ (String.intercalate ", " params ++ ")"))

/-- `'The event type *{t}* is not valid.'` -/
def invalidEventTypeItem (t : String) : ValidationItem :=
  ⟨"ERROR", "The event type *" ++ (t ++ "* is not valid.")⟩

/-- `'The status/es *{s}* are invalid for the event *{t}*.'`  The invalid
statuses form a Python set; its unspecified iteration order is modelled as
first-occurrence order of the declared statuses. -/
def invalidStatusesItem (invalid : List String) (t : String) : ValidationItem :=
  ⟨"ERROR", "The status/es *" ++ (String.intercalate ", " invalid ++
    ("* are invalid for the event *" ++ (t ++ "*.")))⟩

/-- `'The handler for the event *{t}* has an invalid signature: *{sig}*'` -/
def invalidEventSignatureItem (t : String) (sig : String) : ValidationItem :=
  ⟨"ERROR", "The handler for the event *" ++
    (t ++ ("* has an invalid signature: *" ++ (sig ++ "*")))⟩

/-- `'The schedulable method *{m}* has an invalid signature: *{sig}*'` -/
def invalidSchedulableSignatureItem (m : String) (sig : String) : ValidationItem :=
  ⟨"ERROR", "The schedulable method *" ++
    (m ++ ("* has an invalid signature: *" ++ (sig ++ "*")))⟩

/-- `set(a) - set(b)`: the set difference, as a duplicate-free list (the
iteration order of a Python set is unspecified and no claim observes it). -/
def setDifference (a b : List String) : List String :=
  (a.filter (fun s => !b.contains s)).dedup

/-- The messages the `for event in events` loop body of `validate_events`
produces for one declared event entry: an unknown `event_type` yields its
error and `continue`s; otherwise the status check and then the
two-parameter signature check run. -/
def eventMessages (defs : List EventDef) (cls : ExtensionClass) (e : EventDecl) :
    List ValidationItem :=
  match lookupDefinition defs e.event_type with
  | Option.none => [invalidEventTypeItem e.event_type]
  | some d =>
    let invalid :=
      if d.object_statuses.isEmpty then e.statuses.dedup
      else setDifference e.statuses d.object_statuses
    let params := methodParameters cls e.method
    (if invalid.isEmpty then [] else [invalidStatusesItem invalid e.event_type]) ++
    (if params.length == 2 then []
     else [invalidEventSignatureItem e.event_type (signatureString e.method params)])

/-- `validate_events`: a no-op when no `extension`-type class is loaded;
never halts. -/
def validate_events (defs : List EventDef) (extension_class : Option ExtensionClass) :
    ValidationResult :=
  match extension_class with
  | Option.none => ⟨[], false⟩
  | some cls => ⟨cls.events.foldl (fun acc e => acc ++ eventMessages defs cls e) [], false⟩

/-- The messages the loop body of `validate_schedulables` produces for one
declared schedulable entry. -/
def schedulableMessages (cls : ExtensionClass) (s : SchedulableDecl) :
    List ValidationItem :=
  let params := methodParameters cls s.method
  if params.length == 2 then []
  else [invalidSchedulableSignatureItem s.method (signatureString s.method params)]

/-- `validate_schedulables`: a no-op when no `extension`-type class is
loaded; never halts. -/
def validate_schedulables (extension_class : Option ExtensionClass) : ValidationResult :=
  match extension_class with
  | Option.none => ⟨[], false⟩
  | some cls =>
    ⟨cls.schedulables.foldl (fun acc s => acc ++ schedulableMessages cls s) [], false⟩

/-! ## `validate_extension_class` -/

/-- The three extension types of `possible_extensions`. -/
inductive ExtensionType where
  | extension
  | webapp
  | anvil
deriving DecidableEq, Repr

/-- `class_mapping` of `validate_extension_class`. -/
def classMapping : ExtensionType → String
  | .extension => "connect.eaas.core.extension.[Events]Extension"
  | .webapp => "connect.eaas.core.extension.WebAppExtension"
  | .anvil => "connect.eaas.core.extension.AnvilExtension"

/-- One loaded class as `validate_extension_class` sees it: its declared
extension type, class name, the outcome of the `issubclass` check against
the expected base for its type, and the outcome of `get_descriptor()`
(`Option.none` models `FileNotFoundError`; a loaded descriptor is modelled
by its set of top-level keys, which is all this validator reads). -/
structure LoadedClass where
  type_name : ExtensionType
  class_name : String
  subclass_ok : Bool
  descriptor : Option (List String)
deriving DecidableEq, Repr

/-- The part of a loaded class that `validate_extension_class` inspects
without calling `get_descriptor()`. -/
def loadedClassShape (c : LoadedClass) : ExtensionType × String × Bool :=
  (c.type_name, c.class_name, c.subclass_ok)

/-- `'The extension class *{c}* is not a subclass of *{mapping}*.'` -/
def subclassErrorItem (c : LoadedClass) : ValidationItem :=
  ⟨"ERROR", "The extension class *" ++ (c.class_name ++
    ("* is not a subclass of *" ++ (classMapping c.type_name ++ "*.")))⟩

/-- `'The extension descriptor *extension.json* cannot be loaded.'` -/
def descriptorLoadErrorItem : ValidationItem :=
  ⟨"ERROR", "The extension descriptor *extension.json* cannot be loaded."⟩

/-- `'Extension {k} must be declared using the *connect.eaas.core.decorators.{k or event}* decorator.'` -/
def descriptorKeyWarning (k : String) : ValidationItem :=
  ⟨"WARNING", "Extension " ++ (k ++ (" must be declared using the *connect.eaas.core.decorators." ++
    ((if k == "schedulables" then "event" else k) ++ "* decorator.")))⟩

/-- Result of `validate_extension_class`, whose `ValidationResult` may carry
a `{'descriptor': ...}` context patch. -/
structure ExtensionClassResult where
  messages : List ValidationItem
  must_halt : Bool
  descriptor_patch : Option (List String)
deriving DecidableEq, Repr

/-- `validate_extension_class`: iterates the loaded classes in
`context['extension_classes']` insertion order; the first class failing its
`issubclass` check halts the run.  When every check passes, the descriptor
of the first iterated class — and only that one — is loaded.  An empty
class mapping leaves `ext_class` as `None`, so `ext_class.get_descriptor()`
raises `AttributeError`. -/
def validate_extension_class (classes : List LoadedClass) :
    Except PyErr ExtensionClassResult :=
  match classes.find? (fun c => !c.subclass_ok) with
  | some c => .ok ⟨[subclassErrorItem c], true, Option.none⟩
  | Option.none =>
    match classes.head? with
    | Option.none => .error .attributeError
    | some first =>
      match first.descriptor with
      | Option.none => .ok ⟨[descriptorLoadErrorItem], true, Option.none⟩
      | some keys =>
        .ok ⟨(["variables", "capabilities", "schedulables"].filter
                (fun k => keys.contains k)).map descriptorKeyWarning,
             false, some keys⟩

/-! ## `validate_webapp_extension` -/

/-- One node of the descriptor's `ui` tree: optional `label`, optional
`url`, and a `children` list (absent children modelled as `[]`). -/
inductive UiItem where
  | node (label : Option String) (url : Option String) (children : List UiItem)

mutual

/-- Number of nodes in a `ui` subtree. -/
def uiItemSize : UiItem → Nat
  | .node _ _ cs => 1 + uiForestSize cs

/-- Number of nodes in a list of `ui` subtrees. -/
def uiForestSize : List UiItem → Nat
  | [] => 0
  | x :: xs => uiItemSize x + uiForestSize xs

end

mutual

/-- Every node of the subtree carries a `url`. -/
def uiItemUrlsOk : UiItem → Bool
  | .node _ url cs => url.isSome && uiForestUrlsOk cs

/-- Every node of every subtree carries a `url`. -/
def uiForestUrlsOk : List UiItem → Bool
  | [] => true
  | x :: xs => uiItemUrlsOk x && uiForestUrlsOk xs

end

/-- Split a character list on `/`, mirroring Python's `str.split('/')`
(always at least one, possibly empty, segment). -/
def splitSegments : List Char → List (List Char)
  | [] => [[]]
  | c :: cs =>
    let r := splitSegments cs
    if c = '/' then [] :: r
    else
      match r with
      | [] => [[c]]
      | s :: ss => (c :: s) :: ss

/-- `url.split('/')[-1]`: the final path segment of a url. -/
def lastSegment (url : String) : String :=
  String.mk ((splitSegments url.data).getLastD [])

mutual

/-- Some node of the subtree has a `url` whose final path segment is not
among the files of the static-assets directory. -/
def uiItemHasMissingFile (files : List String) : UiItem → Bool
  | .node _ url cs =>
    (match url with
     | some u => !files.contains (lastSegment u)
     | Option.none => false) || uiForestHasMissingFile files cs

/-- Some node of some subtree references a missing static file. -/
def uiForestHasMissingFile (files : List String) : List UiItem → Bool
  | [] => false
  | x :: xs => uiItemHasMissingFile files x || uiForestHasMissingFile files xs

end

/-- The `while ui_items` worklist loop of `validate_webapp_extension`.  The
source uses a `deque`, appending on the right and popping from the right;
the deque is represented here reversed, so its right end is the list head.
A node without a `url` aborts the walk with the node's `label`
(`.error`); otherwise the node's `url` is appended to the missing list when
no file named by its final path segment exists under `static_root`, and the
node's children are pushed. -/
def walkUiItems (files : List String) :
    List UiItem → List String → Except (Option String) (List String)
  | [], missed => .ok missed
  | UiItem.node lab url cs :: rest, missed =>
    match url with
    | Option.none => .error lab
    | some u =>
      walkUiItems files (cs.reverse ++ rest)
        (if files.contains (lastSegment u) then missed else missed ++ [u])
termination_by stack _ => uiForestSize stack
decreasing_by
  have happ : ∀ a b : List UiItem,
      uiForestSize (a ++ b) = uiForestSize a + uiForestSize b := by
    intro a
    induction a with
    | nil => intro b; simp [uiForestSize]
    | cons x xs ih => intro b; simp [uiForestSize, ih]; omega
  have hrev : ∀ a : List UiItem, uiForestSize a.reverse = uiForestSize a := by
    intro a
    induction a with
    | nil => rfl
    | cons x xs ih => simp [List.reverse_cons, happ, uiForestSize, ih]; omega
  simp [uiForestSize, uiItemSize, happ, hrev]

/-- `f'The extension descriptor contains incorrect ui item*{label}*, url is not presented.'`
(the source concatenates the two message parts without a space; a `None`
label renders as `None`). -/
def missingUrlItem (lab : Option String) : ValidationItem :=
  ⟨"ERROR", "The extension descriptor contains incorrect ui item*" ++
    ((match lab with | some s => s | Option.none => "None") ++ "*, url is not presented.")⟩

/-- `'The extension descriptor contains missing static files: {files}.'` -/
def missingFilesItem (missed : List String) : ValidationItem :=
  ⟨"ERROR", "The extension descriptor contains missing static files: " ++
    (String.intercalate ", " missed ++ ".")⟩

/-- `'The Web app extension class must be wrapped in *@web_app(router)*.'` -/
def webAppWrapperItem : ValidationItem :=
  ⟨"ERROR", "The Web app extension class must be wrapped in *@web_app(router)*."⟩

/-- The router-function error of `validate_webapp_extension`. -/
def routerFunctionItem : ValidationItem :=
  ⟨"ERROR", "The Web app extension class must contain at least one router " ++
    "implementation function wrapped in *@router.your_method(\"/your_path\")*."⟩

/-- The `webapp`-type class as `validate_webapp_extension` sees it:
whether its source starts with `@web_app(router)`, whether some member is a
function whose source starts with `@router.`, and the names of the files
present under its `static_root` directory. -/
structure WebAppClass where
  wrapped_in_web_app : Bool
  has_router_function : Bool
  static_files : List String
deriving DecidableEq, Repr

/-- `validate_webapp_extension`: a no-op when no `webapp` class is loaded;
halts on a missing `@web_app(router)` wrapper, on a missing router
function, on a `ui` node without a `url`, and on missing static files (all
missing urls collected into a single error). `ui` is the descriptor's `ui`
mapping in insertion order, absent when the descriptor has no `ui` key. -/
def validate_webapp_extension (webapp : Option WebAppClass)
    (ui : Option (List (String × UiItem))) : ValidationResult :=
  match webapp with
  | Option.none => ⟨[], false⟩
  | some cls =>
    if !cls.wrapped_in_web_app then ⟨[webAppWrapperItem], true⟩
    else if !cls.has_router_function then ⟨[routerFunctionItem], true⟩
    else
      match ui with
      | Option.none => ⟨[], false⟩
      | some uiMap =>
        match walkUiItems cls.static_files (uiMap.map Prod.snd).reverse [] with
        | .error lab => ⟨[missingUrlItem lab], true⟩
        | .ok [] => ⟨[], false⟩
        | .ok (u :: us) => ⟨[missingFilesItem (u :: us)], true⟩

/-! ## `validate_docker_compose_yml` -/

/-- A parsed YAML value. -/
inductive Yaml where
  | null
  | str (s : String)
  | seq (items : List Yaml)
  | map (entries : List (String × Yaml))

/-- `y[k]` on a parsed YAML value: a `KeyError` on a mapping without the
key, a `TypeError` on anything that is not a mapping. -/
def yamlSubscript (y : Yaml) (k : String) : Except PyErr Yaml :=
  match y with
  | .map entries =>
    match entries.lookup k with
    | some v => .ok v
    | Option.none => .error (.keyError k)
  | _ => .error .typeError

/-- `y.get(k)`: only mappings have `.get`; everything else raises
(`AttributeError` for `None`, strings and lists). -/
def yamlGetAttr (y : Yaml) (k : String) : Except PyErr (Option Yaml) :=
  match y with
  | .map entries => .ok (entries.lookup k)
  | _ => .error .attributeError

/-- `for k in y`: iterating a YAML mapping yields its keys in insertion
order; iterating a non-mapping eventually raises and is abstracted to
`TypeError`. -/
def yamlKeys (y : Yaml) : Except PyErr (List String) :=
  match y with
  | .map entries => .ok (entries.map Prod.fst)
  | _ => .error .typeError

/-- Rendering of a YAML value inside an f-string (`None` for null; nested
collections abstracted). -/
def pyStrOfYaml : Yaml → String
  | .null => "None"
  | .str s => s
  | .seq _ => "[...]"
  | .map _ => "\x7b...\x7d"

/-- Rendering of `service.get('image')` inside the error message. -/
def pyStrOfImage : Option Yaml → String
  | Option.none => "None"
  | some y => pyStrOfYaml y

/-- `f'cloudblueconnect/connect-extension-runner:{context["runner_version"]}'`. -/
def runnerImage (runner_version : String) : String :=
  "cloudblueconnect/connect-extension-runner:" ++ runner_version

/-- `image != runner_image` is false exactly when the service's `image`
value is the expected runner string. -/
def imageMatches (image : Option Yaml) (runner_version : String) : Bool :=
  match image with
  | some (.str s) => s == runnerImage runner_version
  | _ => false

/-- `'Invalid image for service *{k}*: expected *{expected}* got *{image}*.'` -/
def invalidImageItem (k : String) (expected : String) (image : Option Yaml) :
    ValidationItem :=
  ⟨"ERROR", "Invalid image for service *" ++ (k ++ ("*: expected *" ++
    (expected ++ ("* got *" ++ (pyStrOfImage image ++ "*.")))))⟩

/-- The warning issued when `docker-compose.yml` is absent. -/
def composeMissingItem (project_dir : String) : ValidationItem :=
  ⟨"WARNING", "The directory *" ++ (project_dir ++
    ("* does not look like an extension project directory, " ++
     "the file *docker-compose.yml* is not present."))⟩

/-- `'The file *docker-compose.yml* is not valid.'` -/
def composeInvalidItem : ValidationItem :=
  ⟨"ERROR", "The file *docker-compose.yml* is not valid."⟩

/-- State of `docker-compose.yml` in the project directory: absent,
present but rejected by the YAML parser, or parsed to a value. -/
inductive ComposeFile where
  | absent
  | unparsable
  | parsed (data : Yaml)

/-- One iteration of the `for service in data['services']` loop:
`data['services'][service].get('image')` compared against the expected
runner image. -/
def composeServiceStep (services : Yaml) (runner_version : String)
    (acc : List ValidationItem) (k : String) : Except PyErr (List ValidationItem) := do
  let svc ← yamlSubscript services k
  let image ← yamlGetAttr svc "image"
  pure (acc ++ (if imageMatches image runner_version then []
                else [invalidImageItem k (runnerImage runner_version) image]))

/-- `validate_docker_compose_yml`: warns (without halting) when the file is
absent, errors (without halting) when it cannot be parsed, and otherwise
checks every declared service's image against
`cloudblueconnect/connect-extension-runner:<runner_version>`.  The
`data['services']` lookup is unguarded, so a parsed value without that
shape raises past the validator. -/
def validate_docker_compose_yml (project_dir : String) (file : ComposeFile)
    (runner_version : String) : Except PyErr ValidationResult :=
  match file with
  | .absent => .ok ⟨[composeMissingItem project_dir], false⟩
  | .unparsable => .ok ⟨[composeInvalidItem], false⟩
  | .parsed data => do
    let services ← yamlSubscript data "services"
    let keys ← yamlKeys services
    let msgs ← keys.foldlM (composeServiceStep services runner_version) []
    pure ⟨msgs, false⟩

/-! ## Specification-side helpers used by the theorems -/

/-- Number of occurrences in the second list that already occurred — either
in `seen` or earlier in the list itself. -/
def repeatCount (seen : List String) : List String → Nat
  | [] => 0
  | n :: ns => (if n ∈ seen then 1 else 0) + repeatCount (seen ++ [n]) ns

/-- The `image` value of the service named `k` in a parsed `services`
mapping (`None` when the service has no `image` key). -/
def serviceImage (svcs : List (String × Yaml)) (k : String) : Option Yaml :=
  match svcs.lookup k with
  | some (.map entries) => entries.lookup "image"
  | _ => Option.none

/-- Recognizes the duplicate-name error among the variable-validator
messages (they are the only ones starting with `Duplicate`). -/
def isDuplicateItem (it : ValidationItem) : Bool :=
  it.message.data.take 9 == "Duplicate".data

/-- Recognizes the name-pattern error among the variable-validator
messages. -/
def isInvalidNameItem (it : ValidationItem) : Bool :=
  it.message.data.take 28 == "Invalid variable name: the v".data

/-- Recognizes the handler-signature error among the event-validator
messages. -/
def isHandlerSignatureItem (it : ValidationItem) : Bool :=
  it.message.data.take 11 == "The handler".data

/-! # Theorems -/

/-! ## The variable-name pattern -/

theorem starLang_plusLang_iff (p : Char → Bool) (cs : List Char) :
    StarLang (PlusLang p) cs ↔ ∀ c ∈ cs, p c = true := by
  constructor
  · intro h
    induction h with
    | nil => intro c hc; cases hc
    | app xs ys hxs _ ih =>
      intro c hc
      rcases List.mem_append.mp hc with h1 | h2
      · exact hxs.2 c h1
      · exact ih c h2
  · intro h
    cases cs with
    | nil => exact StarLang.nil
    | cons c rest =>
      have : (c :: rest) ++ [] = c :: rest := by simp
      rw [← this]
      exact StarLang.app (c :: rest) [] ⟨by simp, h⟩ StarLang.nil

/-- The language of the source pattern `^[A-Za-z](?:[A-Za-z0-9_\-.]+)*$`
coincides with the executable matcher (the language of
`^[A-Za-z][A-Za-z0-9_\-.]*$`). -/
theorem variable_name_match_iff_lang (s : String) :
    variable_name_match s = true ↔ variable_name_pattern_lang s := by
  unfold variable_name_match variable_name_pattern_lang
  cases hs : s.data with
  | nil => simp
  | cons c cs =>
    simp only [Bool.and_eq_true, List.all_eq_true]
    constructor
    · rintro ⟨h1, h2⟩
      exact ⟨c, cs, rfl, h1, (starLang_plusLang_iff _ _).mpr h2⟩
    · rintro ⟨c', cs', he, h1, h2⟩
      cases he
      exact ⟨h1, (starLang_plusLang_iff _ _).mp h2⟩

/-! ## C1: merge direction of composed variable declarations -/

/-- C1 (counterexample): the claim says that with an outer annotation
declaring `{name: "A", initial_value: "changeme!", secure: true}` and an
inner annotation declaring `{name: "A", initial_value: "x", secure: false}`,
`get_variables()` yields the outer-annotation entry for `"A"`.  In fact the
inner (first-applied) annotation's entry survives: the repository's tests
(`test_get_anvil_key_variable_with_variables_before`/`..._after`) pin this
direction. -/
theorem getVariables_outer_wins_counterexample :
    variableFor (get_variables
      [Decorator.vars [⟨some "A", some (PyVal.str "changeme!"), some (PyVal.bool true)⟩],
       Decorator.vars [⟨some "A", some (PyVal.str "x"), some (PyVal.bool false)⟩]]) "A"
      = some ⟨some "A", some (PyVal.str "x"), some (PyVal.bool false)⟩ ∧
    (some (⟨some "A", some (PyVal.str "x"), some (PyVal.bool false)⟩ : VariableEntry) ≠
      some (⟨some "A", some (PyVal.str "changeme!"), some (PyVal.bool true)⟩ : VariableEntry)) := by
  constructor
  · rfl
  · decide

/-- C1 (amended): when two composed capability annotations each contribute
a variable entry with the same name, `get_variables()` yields the entry
contributed by the innermost-applied (first-applied) annotation, regardless
of the physical top-to-bottom order in which the annotations are written;
in particular an `@anvil_key_variable` entry and a same-named `@variables`
entry resolve to whichever annotation is applied first.  (Decorator lists
are written top to bottom; the last listed decorator is the
innermost-applied one.) -/
theorem getVariables_innermost_wins (v w : VariableEntry) (n : String)
    (hv : v.name = some n) (hw : w.name = some n) :
    get_variables [Decorator.vars [w], Decorator.vars [v]] = [v] ∧
    get_variables [Decorator.vars [v], Decorator.vars [w]] = [w] ∧
    get_variables [Decorator.vars [w], Decorator.anvil_key_variable n] = [anvilKeyEntry n] ∧
    get_variables [Decorator.anvil_key_variable n, Decorator.vars [w]] = [w] := by
  have hanvil : (anvilKeyEntry n).name = some n := rfl
  refine ⟨?_, ?_, ?_, ?_⟩ <;>
    simp [get_variables, applyDecorator, addVariables, hv, hw, hanvil,
      List.filterMap, List.filter]

/-- C1 (witness): the amended claim at the concrete entries of the
repository's anvil-key tests. -/
theorem getVariables_innermost_wins_witness :
    get_variables [Decorator.vars [⟨some "ANVIL_API_KEY", some (PyVal.str "test!"), some (PyVal.bool false)⟩],
        Decorator.vars [⟨some "ANVIL_API_KEY", some (PyVal.str "changeme!"), some (PyVal.bool true)⟩]]
      = [⟨some "ANVIL_API_KEY", some (PyVal.str "changeme!"), some (PyVal.bool true)⟩] ∧
    get_variables [Decorator.vars [⟨some "ANVIL_API_KEY", some (PyVal.str "changeme!"), some (PyVal.bool true)⟩],
        Decorator.vars [⟨some "ANVIL_API_KEY", some (PyVal.str "test!"), some (PyVal.bool false)⟩]]
      = [⟨some "ANVIL_API_KEY", some (PyVal.str "test!"), some (PyVal.bool false)⟩] ∧
    get_variables [Decorator.vars [⟨some "ANVIL_API_KEY", some (PyVal.str "test!"), some (PyVal.bool false)⟩],
        Decorator.anvil_key_variable "ANVIL_API_KEY"]
      = [anvilKeyEntry "ANVIL_API_KEY"] ∧
    get_variables [Decorator.anvil_key_variable "ANVIL_API_KEY",
        Decorator.vars [⟨some "ANVIL_API_KEY", some (PyVal.str "test!"), some (PyVal.bool false)⟩]]
      = [⟨some "ANVIL_API_KEY", some (PyVal.str "test!"), some (PyVal.bool false)⟩] :=
  getVariables_innermost_wins
    ⟨some "ANVIL_API_KEY", some (PyVal.str "changeme!"), some (PyVal.bool true)⟩
    ⟨some "ANVIL_API_KEY", some (PyVal.str "test!"), some (PyVal.bool false)⟩
    "ANVIL_API_KEY" rfl rfl

/-! ## Helper lemmas on message prefixes -/

theorem data_take_append (a b : String) (n : Nat) (h : n ≤ a.data.length) :
    (a ++ b).data.take n = a.data.take n := by
  rw [String.data_append, List.take_append_of_le_length h]

theorem isHandlerSignatureItem_sig (t sig : String) :
    isHandlerSignatureItem (invalidEventSignatureItem t sig) = true := by
  unfold isHandlerSignatureItem invalidEventSignatureItem
  simp only
  rw [data_take_append _ _ _ (by decide)]
  decide

theorem isHandlerSignatureItem_statuses (inv : List String) (t : String) :
    isHandlerSignatureItem (invalidStatusesItem inv t) = false := by
  unfold isHandlerSignatureItem invalidStatusesItem
  simp only
  rw [data_take_append _ _ _ (by decide)]
  decide

/-! ## C10: unknown event types short-circuit the entry -/

/-- C10: a declared event entry whose `event_type` is not a key of the
supplied schema contributes exactly one ERROR and nothing else — the status
check and the two-parameter signature check are skipped for it (the
equality holds for every class, in particular one whose handler has the
wrong arity). -/
theorem unknown_event_type_short_circuits (defs : List EventDef)
    (cls : ExtensionClass) (e : EventDecl)
    (h : lookupDefinition defs e.event_type = Option.none) :
    eventMessages defs cls e = [invalidEventTypeItem e.event_type] ∧
    (eventMessages defs cls e).length = 1 ∧
    (invalidEventTypeItem e.event_type).severity = "ERROR" := by
  unfold eventMessages
  rw [h]
  exact ⟨rfl, rfl, rfl⟩

/-- C10 (witness): an entry with unknown type `not_a_type`, a bogus
declared status and a three-parameter handler still contributes exactly the
single unknown-type ERROR. -/
theorem unknown_event_type_short_circuits_witness :
    eventMessages [⟨"asset_purchase_request_processing", ["pending", "inquiring"]⟩]
        ⟨[⟨"handle", "not_a_type", ["bogus"]⟩], [], [("handle", ["self", "request", "extra"])]⟩
        ⟨"handle", "not_a_type", ["bogus"]⟩
      = [invalidEventTypeItem "not_a_type"] ∧
    (eventMessages [⟨"asset_purchase_request_processing", ["pending", "inquiring"]⟩]
        ⟨[⟨"handle", "not_a_type", ["bogus"]⟩], [], [("handle", ["self", "request", "extra"])]⟩
        ⟨"handle", "not_a_type", ["bogus"]⟩).length = 1 ∧
    (invalidEventTypeItem "not_a_type").severity = "ERROR" :=
  unknown_event_type_short_circuits _ _ _ rfl

/-! ## C3: the event validator's type and status checks -/

/-- C3: per declared event entry, the validator reports an ERROR for an
unrecognized `event_type`; for a recognized type it reports an ERROR when
some declared status falls outside the type's allowed status set (when the
type restricts statuses) or when any status is declared while the type
allows none; and an entry with a recognized type, allowed statuses, and a
handler taking exactly `(self, request)` contributes no message at all. -/
theorem event_validator_checks (defs : List EventDef) (cls : ExtensionClass)
    (e : EventDecl) (d : EventDef) :
    (lookupDefinition defs e.event_type = Option.none →
      eventMessages defs cls e = [invalidEventTypeItem e.event_type] ∧
      (invalidEventTypeItem e.event_type).severity = "ERROR") ∧
    (lookupDefinition defs e.event_type = some d → d.object_statuses ≠ [] →
      (∃ s ∈ e.statuses, s ∉ d.object_statuses) →
      ∃ invalid, invalid ≠ [] ∧
        invalidStatusesItem invalid e.event_type ∈ eventMessages defs cls e ∧
        (invalidStatusesItem invalid e.event_type).severity = "ERROR") ∧
    (lookupDefinition defs e.event_type = some d → d.object_statuses = [] →
      e.statuses ≠ [] →
      ∃ invalid, invalid ≠ [] ∧
        invalidStatusesItem invalid e.event_type ∈ eventMessages defs cls e ∧
        (invalidStatusesItem invalid e.event_type).severity = "ERROR") ∧
    (lookupDefinition defs e.event_type = some d →
      (∀ s ∈ e.statuses, s ∈ d.object_statuses) →
      (methodParameters cls e.method).length = 2 →
      eventMessages defs cls e = []) := by
  refine ⟨?_, ?_, ?_, ?_⟩
  · intro h
    unfold eventMessages
    rw [h]
    exact ⟨rfl, rfl⟩
  · rintro h hne ⟨s, hs, hnot⟩
    have hmem : s ∈ setDifference e.statuses d.object_statuses := by
      unfold setDifference
      rw [List.mem_dedup, List.mem_filter]
      refine ⟨hs, ?_⟩
      simp [List.elem_iff, hnot]
    have hne' : setDifference e.statuses d.object_statuses ≠ [] :=
      List.ne_nil_of_mem hmem
    refine ⟨setDifference e.statuses d.object_statuses, hne', ?_, rfl⟩
    unfold eventMessages
    rw [h]
    have hN : d.object_statuses.isEmpty = false := by
      cases hE : d.object_statuses with
      | nil => exact absurd hE hne
      | cons a l => rfl
    simp [hN, hne']
  · rintro h hnil hne
    have hd : e.statuses.dedup ≠ [] := by
      rw [Ne, List.dedup_eq_nil]
      exact hne
    refine ⟨e.statuses.dedup, hd, ?_, rfl⟩
    unfold eventMessages
    rw [h]
    simp [hnil, hd]
  · intro h hall hlen
    unfold eventMessages
    rw [h]
    have hsig : (methodParameters cls e.method).length == 2 := by
      simp [hlen]
    cases hobj : d.object_statuses with
    | nil =>
      have : e.statuses = [] := by
        rw [List.eq_nil_iff_forall_not_mem]
        intro s hs
        have := hall s hs
        rw [hobj] at this
        cases this
      simp [hobj, this, hsig]
    | cons a l =>
      have hfil : e.statuses.filter (fun s => !(a :: l).contains s) = [] := by
        rw [List.filter_eq_nil_iff]
        intro s hs
        have := hall s hs
        rw [hobj] at this
        simp [List.elem_iff, this]
      have hN : d.object_statuses.isEmpty = false := by rw [hobj]; rfl
      have hset : setDifference e.statuses d.object_statuses = [] := by
        unfold setDifference
        rw [hobj, hfil]
        rfl
      simp [hN, hset, hsig]

/-- C3 (witness): the schema example of the spec — a conforming entry gives
zero messages, a `bogus` status gives a status ERROR, and the unknown type
`not_a_type` gives exactly the single unknown-type ERROR. -/
theorem event_validator_checks_witness :
    eventMessages [⟨"asset_purchase_request_processing", ["pending", "inquiring"]⟩]
        ⟨[⟨"process", "asset_purchase_request_processing", ["pending", "inquiring"]⟩], [],
          [("process", ["self", "request"])]⟩
        ⟨"process", "asset_purchase_request_processing", ["pending", "inquiring"]⟩ = [] ∧
    (∃ invalid, invalid ≠ [] ∧
      invalidStatusesItem invalid "asset_purchase_request_processing" ∈
        eventMessages [⟨"asset_purchase_request_processing", ["pending", "inquiring"]⟩]
          ⟨[⟨"process", "asset_purchase_request_processing", ["bogus"]⟩], [],
            [("process", ["self", "request"])]⟩
          ⟨"process", "asset_purchase_request_processing", ["bogus"]⟩ ∧
      (invalidStatusesItem invalid "asset_purchase_request_processing").severity = "ERROR") ∧
    eventMessages [⟨"asset_purchase_request_processing", ["pending", "inquiring"]⟩]
        ⟨[⟨"process", "not_a_type", []⟩], [], [("process", ["self", "request"])]⟩
        ⟨"process", "not_a_type", []⟩ = [invalidEventTypeItem "not_a_type"] := by
  refine ⟨?_, ?_, ?_⟩
  · exact (event_validator_checks _ _ _
      ⟨"asset_purchase_request_processing", ["pending", "inquiring"]⟩).2.2.2
      rfl (by decide) rfl
  · exact (event_validator_checks _ _ _
      ⟨"asset_purchase_request_processing", ["pending", "inquiring"]⟩).2.1
      rfl (by decide) ⟨"bogus", by decide, by decide⟩
  · exact ((event_validator_checks
      [⟨"asset_purchase_request_processing", ["pending", "inquiring"]⟩]
      ⟨[⟨"process", "not_a_type", []⟩], [], [("process", ["self", "request"])]⟩
      ⟨"process", "not_a_type", []⟩ ⟨"", []⟩).1 rfl).1

/-! ## C4: the two-parameter signature check -/

theorem countP_status_part (b : Bool) (inv : List String) (t : String) :
    (if b then ([] : List ValidationItem) else [invalidStatusesItem inv t]).countP
      isHandlerSignatureItem = 0 := by
  cases b <;> simp [isHandlerSignatureItem_statuses]

/-- C4: for an event entry with a recognized type, exactly one
signature ERROR is emitted when the bound handler's parameter count is not
two and none otherwise, and the error's message embeds the reconstructed
call signature (method name plus parameter list); the schedulable validator
performs the same check per entry. -/
theorem handler_signature_check (defs : List EventDef) (cls : ExtensionClass)
    (e : EventDecl) (d : EventDef) (s : SchedulableDecl) :
    (lookupDefinition defs e.event_type = some d →
      ((eventMessages defs cls e).countP isHandlerSignatureItem =
        if (methodParameters cls e.method).length = 2 then 0 else 1) ∧
      ((methodParameters cls e.method).length ≠ 2 →
        invalidEventSignatureItem e.event_type
          (signatureString e.method (methodParameters cls e.method)) ∈
            eventMessages defs cls e) ∧
      (invalidEventSignatureItem e.event_type
        (signatureString e.method (methodParameters cls e.method))).severity = "ERROR" ∧
      ∃ pre post,
        (invalidEventSignatureItem e.event_type
          (signatureString e.method (methodParameters cls e.method))).message =
          pre ++ (signatureString e.method (methodParameters cls e.method) ++ post)) ∧
    ((methodParameters cls s.method).length = 2 → schedulableMessages cls s = []) ∧
    ((methodParameters cls s.method).length ≠ 2 →
      schedulableMessages cls s =
        [invalidSchedulableSignatureItem s.method
          (signatureString s.method (methodParameters cls s.method))]) ∧
    (invalidSchedulableSignatureItem s.method
      (signatureString s.method (methodParameters cls s.method))).severity = "ERROR" ∧
    ∃ pre post,
      (invalidSchedulableSignatureItem s.method
        (signatureString s.method (methodParameters cls s.method))).message =
        pre ++ (signatureString s.method (methodParameters cls s.method) ++ post) := by
  refine ⟨?_, ?_, ?_, rfl, ?_⟩
  · intro h
    refine ⟨?_, ?_, rfl, ?_⟩
    · unfold eventMessages
      rw [h]
      by_cases hl : (methodParameters cls e.method).length = 2
      · have hb : ((methodParameters cls e.method).length == 2) = true := by simp [hl]
        simp [hb, hl, List.countP_append, countP_status_part,
          isHandlerSignatureItem_statuses]
      · have hb : ((methodParameters cls e.method).length == 2) = false := by simp [hl]
        simp [hb, hl, List.countP_append, countP_status_part,
          isHandlerSignatureItem_sig, isHandlerSignatureItem_statuses]
    · intro hl
      unfold eventMessages
      rw [h]
      have hb : ((methodParameters cls e.method).length == 2) = false := by simp [hl]
      simp [hb]
    · refine ⟨"The handler for the event *" ++
        (e.event_type ++ "* has an invalid signature: *"), "*", ?_⟩
      simp [invalidEventSignatureItem, String.append_assoc]
  · intro hl
    unfold schedulableMessages
    have hb : ((methodParameters cls s.method).length == 2) = true := by simp [hl]
    simp [hb]
  · intro hl
    unfold schedulableMessages
    have hb : ((methodParameters cls s.method).length == 2) = false := by simp [hl]
    simp [hb]
  · refine ⟨"The schedulable method *" ++
      (s.method ++ "* has an invalid signature: *"), "*", ?_⟩
    simp [invalidSchedulableSignatureItem, String.append_assoc]

/-- C4 (witness): a three-parameter event handler and a one-parameter
schedulable method each yield exactly one signature ERROR embedding the
reconstructed signature; a two-parameter schedulable yields none. -/
theorem handler_signature_check_witness :
    (eventMessages [⟨"asset_purchase_request_processing", ["pending"]⟩]
        ⟨[⟨"process", "asset_purchase_request_processing", ["pending"]⟩],
          [⟨"sched", "nm", "desc"⟩],
          [("process", ["self", "request", "extra"]), ("sched", ["self"]),
           ("ok_sched", ["self", "request"])]⟩
        ⟨"process", "asset_purchase_request_processing", ["pending"]⟩).countP
      isHandlerSignatureItem = 1 ∧
    schedulableMessages
        ⟨[⟨"process", "asset_purchase_request_processing", ["pending"]⟩],
          [⟨"sched", "nm", "desc"⟩],
          [("process", ["self", "request", "extra"]), ("sched", ["self"]),
           ("ok_sched", ["self", "request"])]⟩
        ⟨"sched", "nm", "desc"⟩ =
      [invalidSchedulableSignatureItem "sched" (signatureString "sched" ["self"])] ∧
    schedulableMessages
        ⟨[⟨"process", "asset_purchase_request_processing", ["pending"]⟩],
          [⟨"sched", "nm", "desc"⟩],
          [("process", ["self", "request", "extra"]), ("sched", ["self"]),
           ("ok_sched", ["self", "request"])]⟩
        ⟨"ok_sched", "nm2", "desc2"⟩ = [] := by
  have h := handler_signature_check [⟨"asset_purchase_request_processing", ["pending"]⟩]
    ⟨[⟨"process", "asset_purchase_request_processing", ["pending"]⟩],
      [⟨"sched", "nm", "desc"⟩],
      [("process", ["self", "request", "extra"]), ("sched", ["self"]),
       ("ok_sched", ["self", "request"])]⟩
    ⟨"process", "asset_purchase_request_processing", ["pending"]⟩
    ⟨"asset_purchase_request_processing", ["pending"]⟩
    ⟨"sched", "nm", "desc"⟩
  have h2 := handler_signature_check [⟨"asset_purchase_request_processing", ["pending"]⟩]
    ⟨[⟨"process", "asset_purchase_request_processing", ["pending"]⟩],
      [⟨"sched", "nm", "desc"⟩],
      [("process", ["self", "request", "extra"]), ("sched", ["self"]),
       ("ok_sched", ["self", "request"])]⟩
    ⟨"process", "asset_purchase_request_processing", ["pending"]⟩
    ⟨"asset_purchase_request_processing", ["pending"]⟩
    ⟨"ok_sched", "nm2", "desc2"⟩
  refine ⟨?_, ?_, ?_⟩
  · have := (h.1 rfl).1
    simpa using this
  · exact h.2.2.1 (by decide)
  · exact h2.2.1 (by decide)

/-! ## C2/C5: counting the variable validator's messages -/

theorem isDuplicateItem_dup (n : String) :
    isDuplicateItem (duplicateNameItem n) = true := by
  unfold isDuplicateItem duplicateNameItem
  simp only
  rw [data_take_append _ _ _ (by decide)]
  decide

theorem isDuplicateItem_mandatory : isDuplicateItem nameMandatoryItem = false := by
  decide

theorem isDuplicateItem_invalidName (n : String) :
    isDuplicateItem (invalidNameItem n) = false := by
  unfold isDuplicateItem invalidNameItem
  simp only
  rw [data_take_append _ _ _ (by decide)]
  decide

theorem isDuplicateItem_iv (n : String) (v : PyVal) :
    isDuplicateItem (invalidInitialValueItem n v) = false := by
  unfold isDuplicateItem invalidInitialValueItem
  simp only
  rw [data_take_append _ _ _ (by decide)]
  decide

theorem isDuplicateItem_sec (n : String) (v : PyVal) :
    isDuplicateItem (invalidSecureItem n v) = false := by
  unfold isDuplicateItem invalidSecureItem
  simp only
  rw [data_take_append _ _ _ (by decide)]
  decide

theorem isInvalidNameItem_invalidName (n : String) :
    isInvalidNameItem (invalidNameItem n) = true := by
  unfold isInvalidNameItem invalidNameItem
  simp only
  rw [data_take_append _ _ _ (by decide)]
  decide

theorem isInvalidNameItem_mandatory : isInvalidNameItem nameMandatoryItem = false := by
  decide

theorem isInvalidNameItem_dup (n : String) :
    isInvalidNameItem (duplicateNameItem n) = false := by
  unfold isInvalidNameItem duplicateNameItem
  simp only
  rw [data_take_append _ _ _ (by decide)]
  decide

theorem isInvalidNameItem_iv (n : String) (v : PyVal) :
    isInvalidNameItem (invalidInitialValueItem n v) = false := by
  unfold isInvalidNameItem invalidInitialValueItem
  simp only
  rw [data_take_append _ _ _ (by decide)]
  decide

theorem isInvalidNameItem_sec (n : String) (v : PyVal) :
    isInvalidNameItem (invalidSecureItem n v) = false := by
  unfold isInvalidNameItem invalidSecureItem
  simp only
  rw [data_take_append _ _ _ (by decide)]
  decide

theorem get_variables_single (vs : List VariableEntry) :
    get_variables [Decorator.vars vs] = vs := by
  show addVariables [] vs = vs
  unfold addVariables
  simp only [List.filterMap_nil, List.nil_append]
  rw [List.filter_eq_self.mpr]
  intro v _
  cases hn : v.name <;> simp

theorem dup_count_fold (vs : List VariableEntry) :
    ∀ msgs names,
      ((vs.foldl checkVariable (msgs, names)).1).countP isDuplicateItem =
        msgs.countP isDuplicateItem +
          repeatCount names (vs.filterMap VariableEntry.name) := by
  induction vs with
  | nil => intro msgs names; simp [repeatCount]
  | cons v vs ih =>
    intro msgs names
    cases hv : v.name with
    | none =>
      simp only [List.foldl_cons, checkVariable, hv]
      rw [ih]
      simp [List.countP_append, isDuplicateItem_mandatory, hv, List.filterMap_cons]
    | some n =>
      simp only [List.foldl_cons, checkVariable, hv]
      rw [ih]
      have hA : (if n ∈ names then [duplicateNameItem n] else
          ([] : List ValidationItem)).countP isDuplicateItem =
          if n ∈ names then 1 else 0 := by
        by_cases hmem : n ∈ names <;> simp [hmem, isDuplicateItem_dup]
      have hB : (if variable_name_match n then [] else
          [invalidNameItem n]).countP isDuplicateItem = 0 := by
        by_cases hm : variable_name_match n <;> simp [hm, isDuplicateItem_invalidName]
      have hC : (match v.initial_value with
          | some pv => if pv.isStr then [] else [invalidInitialValueItem n pv]
          | Option.none => ([] : List ValidationItem)).countP isDuplicateItem = 0 := by
        cases v.initial_value with
        | none => rfl
        | some pv => by_cases hp : pv.isStr <;> simp [hp, isDuplicateItem_iv]
      have hD : (match v.secure with
          | some pv => if pv.isBool then [] else [invalidSecureItem n pv]
          | Option.none => ([] : List ValidationItem)).countP isDuplicateItem = 0 := by
        cases v.secure with
        | none => rfl
        | some pv => by_cases hp : pv.isBool <;> simp [hp, isDuplicateItem_sec]
      simp [List.countP_append, hA, hB, hC, hD, hv, List.filterMap_cons, repeatCount]
      omega

theorem invalidname_count_fold (vs : List VariableEntry) :
    ∀ msgs names,
      ((vs.foldl checkVariable (msgs, names)).1).countP isInvalidNameItem =
        msgs.countP isInvalidNameItem +
          (vs.filterMap VariableEntry.name).countP
            (fun n => !variable_name_match n) := by
  induction vs with
  | nil => intro msgs names; simp
  | cons v vs ih =>
    intro msgs names
    cases hv : v.name with
    | none =>
      simp only [List.foldl_cons, checkVariable, hv]
      rw [ih]
      simp [List.countP_append, isInvalidNameItem_mandatory, hv, List.filterMap_cons]
    | some n =>
      simp only [List.foldl_cons, checkVariable, hv]
      rw [ih]
      have hA : (if n ∈ names then [duplicateNameItem n] else
          ([] : List ValidationItem)).countP isInvalidNameItem = 0 := by
        by_cases hmem : n ∈ names <;> simp [hmem, isInvalidNameItem_dup]
      have hB : (if variable_name_match n then [] else
          [invalidNameItem n]).countP isInvalidNameItem =
          if variable_name_match n then 0 else 1 := by
        by_cases hm : variable_name_match n <;> simp [hm, isInvalidNameItem_invalidName]
      have hC : (match v.initial_value with
          | some pv => if pv.isStr then [] else [invalidInitialValueItem n pv]
          | Option.none => ([] : List ValidationItem)).countP isInvalidNameItem = 0 := by
        cases v.initial_value with
        | none => rfl
        | some pv => by_cases hp : pv.isStr <;> simp [hp, isInvalidNameItem_iv]
      have hD : (match v.secure with
          | some pv => if pv.isBool then [] else [invalidSecureItem n pv]
          | Option.none => ([] : List ValidationItem)).countP isInvalidNameItem = 0 := by
        cases v.secure with
        | none => rfl
        | some pv => by_cases hp : pv.isBool <;> simp [hp, isInvalidNameItem_sec]
      simp [List.countP_append, hA, hB, hC, hD, hv, List.filterMap_cons, List.countP_cons]
      by_cases hm : variable_name_match n <;> simp [hm] <;> omega

theorem dedup_length_le (l : List String) : l.dedup.length ≤ l.length :=
  List.Sublist.length_le (List.dedup_sublist l)

theorem repeatCount_eq (l : List String) :
    ∀ seen, repeatCount seen l =
      l.length - (l.filter (fun n => !seen.contains n)).dedup.length := by
  induction l with
  | nil => intro seen; simp [repeatCount]
  | cons x xs ih =>
    intro seen
    have hpt : ∀ n : String,
        (!(seen ++ [x]).contains n) = ((!seen.contains n) && !(n == x)) := by
      intro n
      by_cases hns : n ∈ seen <;> by_cases hnx : n = x <;>
        simp [List.elem_iff, List.mem_append, hns, hnx]
    by_cases hx : x ∈ seen
    · have hxs : seen.contains x = true := by simp [List.elem_iff, hx]
      have hfil : xs.filter (fun n => !(seen ++ [x]).contains n) =
          xs.filter (fun n => !seen.contains n) := by
        apply List.filter_congr
        intro n _
        rw [hpt n]
        by_cases hnx : n = x
        · subst hnx; simp [hx]
        · simp [hnx]
      have hone : (if x ∈ seen then (1 : Nat) else 0) = 1 := by simp [hx]
      rw [repeatCount, ih (seen ++ [x]), hfil, hone]
      have hxf : (x :: xs).filter (fun n => !seen.contains n) =
          xs.filter (fun n => !seen.contains n) := by
        simp [List.filter_cons, hxs, hx]
      rw [hxf]
      have h1 := dedup_length_le (xs.filter (fun n => !seen.contains n))
      have h2 := List.length_filter_le (fun n => !seen.contains n) xs
      simp only [List.length_cons]
      omega
    · have hxs : seen.contains x = false := by
        simp [List.elem_iff, hx]
      have hG : xs.filter (fun n => !(seen ++ [x]).contains n) =
          (xs.filter (fun n => !seen.contains n)).filter (fun n => !(n == x)) := by
        rw [List.filter_filter]
        apply List.filter_congr
        intro n _
        rw [hpt n]
        exact Bool.and_comm _ _
      have hzero : (if x ∈ seen then (1 : Nat) else 0) = 0 := by simp [hx]
      rw [repeatCount, ih (seen ++ [x]), hG, hzero]
      have hxf : (x :: xs).filter (fun n => !seen.contains n) =
          x :: xs.filter (fun n => !seen.contains n) := by
        simp [List.filter_cons, hxs, hx]
      rw [hxf]
      have h1 := dedup_length_le (xs.filter (fun n => !seen.contains n))
      have h2 := List.length_filter_le (fun n => !seen.contains n) xs
      by_cases hxF : x ∈ xs.filter (fun n => !seen.contains n)
      · have hdc : (x :: xs.filter (fun n => !seen.contains n)).dedup =
            (xs.filter (fun n => !seen.contains n)).dedup :=
          List.dedup_cons_of_mem hxF
        have htf : ((xs.filter (fun n => !seen.contains n)).filter
              (fun n => !(n == x))).toFinset =
            (xs.filter (fun n => !seen.contains n)).toFinset.erase x := by
          rw [List.toFinset_filter]
          ext a
          simp only [Finset.mem_filter, Finset.mem_erase, List.mem_toFinset,
            Bool.not_eq_true', beq_eq_false_iff_ne, Ne]
          tauto
        have hcard : ((xs.filter (fun n => !seen.contains n)).filter
              (fun n => !(n == x))).dedup.length + 1 =
            (xs.filter (fun n => !seen.contains n)).dedup.length := by
          have e1 := List.card_toFinset
            ((xs.filter (fun n => !seen.contains n)).filter (fun n => !(n == x)))
          have e2 := List.card_toFinset (xs.filter (fun n => !seen.contains n))
          have e4 : ((xs.filter (fun n => !seen.contains n)).toFinset.erase x).card =
              (xs.filter (fun n => !seen.contains n)).toFinset.card - 1 :=
            Finset.card_erase_of_mem (List.mem_toFinset.mpr hxF)
          have hpos : 1 ≤ (xs.filter (fun n => !seen.contains n)).toFinset.card :=
            Finset.card_pos.mpr ⟨x, List.mem_toFinset.mpr hxF⟩
          rw [htf] at e1
          omega
        rw [hdc]
        simp only [List.length_cons]
        omega
      · have hdc : (x :: xs.filter (fun n => !seen.contains n)).dedup =
            x :: (xs.filter (fun n => !seen.contains n)).dedup :=
          List.dedup_cons_of_not_mem hxF
        have hkeep : (xs.filter (fun n => !seen.contains n)).filter
            (fun n => !(n == x)) = xs.filter (fun n => !seen.contains n) := by
          apply List.filter_eq_self.mpr
          intro a ha
          have hax : a ≠ x := fun he => hxF (he ▸ ha)
          simp [hax]
        rw [hdc, hkeep]
        simp only [List.length_cons]
        omega

/-- C2: `@variables(vs)` retains a declaration list with repeated names
as-is (duplicates are not silently merged away for a single declaration
list), and on such a list the variable validator emits exactly one
duplicate-name ERROR per repeated occurrence beyond the first: the number
of duplicate-name errors equals the number of named occurrences minus the
number of distinct names. -/
theorem duplicate_variable_error_count (vs : List VariableEntry) :
    get_variables [Decorator.vars vs] = vs ∧
    ((validate_variables [vs]).messages.countP isDuplicateItem =
      (vs.filterMap VariableEntry.name).length -
        (vs.filterMap VariableEntry.name).dedup.length) ∧
    (validate_variables [vs]).must_halt = false ∧
    (∀ n, (duplicateNameItem n).severity = "ERROR") := by
  refine ⟨get_variables_single vs, ?_, rfl, fun n => rfl⟩
  have hm : (validate_variables [vs]).messages = validateClassVariables vs := by
    simp [validate_variables]
  rw [hm]
  unfold validateClassVariables
  rw [dup_count_fold]
  simp only [List.countP_nil, Nat.zero_add]
  have hf : (vs.filterMap VariableEntry.name).filter
      (fun n => !([] : List String).contains n) = vs.filterMap VariableEntry.name :=
    List.filter_eq_self.mpr (fun a _ => rfl)
  rw [repeatCount_eq, hf]

/-- C5: the variable validator emits exactly one naming ERROR per declared
named entry whose name the pattern rejects and none for accepted names; the
accepted names are exactly the language of `^[A-Za-z][A-Za-z0-9_\-.]*$`
(which the source writes as `^[A-Za-z](?:[A-Za-z0-9_\-.]+)*$`);
`GOOD_VAR-1.0` is accepted while `1bad` and `has space` are rejected. -/
theorem variable_name_check (vs : List VariableEntry) :
    ((validate_variables [vs]).messages.countP isInvalidNameItem =
      (vs.filterMap VariableEntry.name).countP (fun n => !variable_name_match n)) ∧
    (∀ s, variable_name_match s = true ↔ variable_name_pattern_lang s) ∧
    variable_name_match "GOOD_VAR-1.0" = true ∧
    variable_name_match "1bad" = false ∧
    variable_name_match "has space" = false ∧
    (∀ n, (invalidNameItem n).severity = "ERROR") := by
  refine ⟨?_, variable_name_match_iff_lang, by decide, by decide, by decide,
    fun n => rfl⟩
  have hm : (validate_variables [vs]).messages = validateClassVariables vs := by
    simp [validate_variables]
  rw [hm]
  unfold validateClassVariables
  rw [invalidname_count_fold]
  simp

/-! ## C6/C8: the service-composition validator -/

theorem exceptOkBind {ε α β : Type} (a : α) (f : α → Except ε β) :
    ((Except.ok a : Except ε α) >>= f) = f a := rfl

theorem exceptErrBind {ε α β : Type} (e : ε) (f : α → Except ε β) :
    ((Except.error e : Except ε α) >>= f) = Except.error e := rfl

theorem compose_fold_ok (svcs : List (String × Yaml)) (rv : String) :
    ∀ (keys : List String) (acc : List ValidationItem),
      (∀ k ∈ keys, ∃ entries, svcs.lookup k = some (Yaml.map entries)) →
      keys.foldlM (composeServiceStep (Yaml.map svcs) rv) acc =
        Except.ok (acc ++
          (keys.filter (fun k => !imageMatches (serviceImage svcs k) rv)).map
            (fun k => invalidImageItem k (runnerImage rv) (serviceImage svcs k))) := by
  intro keys
  induction keys with
  | nil =>
    intro acc _
    show Except.ok acc = _
    simp
  | cons k ks ih =>
    intro acc h
    obtain ⟨entries, hk⟩ := h k (List.mem_cons_self k ks)
    have himg : serviceImage svcs k = entries.lookup "image" := by
      unfold serviceImage
      rw [hk]
    have hsvc : yamlSubscript (Yaml.map svcs) k = Except.ok (Yaml.map entries) := by
      simp only [yamlSubscript]
      rw [hk]
    have himgv : yamlGetAttr (Yaml.map entries) "image" =
        Except.ok (entries.lookup "image") := rfl
    have hstep : composeServiceStep (Yaml.map svcs) rv acc k =
        Except.ok (acc ++
          (if imageMatches (serviceImage svcs k) rv then []
           else [invalidImageItem k (runnerImage rv) (serviceImage svcs k)])) := by
      unfold composeServiceStep
      simp only [hsvc, exceptOkBind, himgv, himg]
      rfl
    rw [List.foldlM_cons, hstep, exceptOkBind]
    rw [ih _ (fun k' hk' => h k' (List.mem_cons_of_mem _ hk'))]
    by_cases hmatch : imageMatches (serviceImage svcs k) rv
    · simp [hmatch, List.filter_cons]
    · simp [hmatch, List.filter_cons]

/-- C6: the service-composition validator never halts in its three defined
outcomes: a missing file yields exactly one WARNING; an unparsable file
yields exactly one ERROR; a parsed file with a well-formed `services`
mapping yields exactly one ERROR per service whose `image` differs from
`cloudblueconnect/connect-extension-runner:<runner_version>` (each naming
the expected and the actual image) and no message when every image
matches. -/
theorem compose_validator (project_dir rv : String) (m : List (String × Yaml))
    (svcs : List (String × Yaml))
    (hs : m.lookup "services" = some (Yaml.map svcs))
    (hw : ∀ k ∈ svcs.map Prod.fst, ∃ entries, svcs.lookup k = some (Yaml.map entries)) :
    (validate_docker_compose_yml project_dir ComposeFile.absent rv =
      Except.ok ⟨[composeMissingItem project_dir], false⟩) ∧
    ((composeMissingItem project_dir).severity = "WARNING") ∧
    (validate_docker_compose_yml project_dir ComposeFile.unparsable rv =
      Except.ok ⟨[composeInvalidItem], false⟩) ∧
    (composeInvalidItem.severity = "ERROR") ∧
    (validate_docker_compose_yml project_dir (ComposeFile.parsed (Yaml.map m)) rv =
      Except.ok ⟨((svcs.map Prod.fst).filter
          (fun k => !imageMatches (serviceImage svcs k) rv)).map
            (fun k => invalidImageItem k (runnerImage rv) (serviceImage svcs k)),
        false⟩) ∧
    ((∀ k ∈ svcs.map Prod.fst, imageMatches (serviceImage svcs k) rv = true) →
      validate_docker_compose_yml project_dir (ComposeFile.parsed (Yaml.map m)) rv =
        Except.ok ⟨[], false⟩) ∧
    (∀ k img, (invalidImageItem k (runnerImage rv) img).severity = "ERROR" ∧
      ∃ pre mid post, (invalidImageItem k (runnerImage rv) img).message =
        pre ++ (runnerImage rv ++ (mid ++ (pyStrOfImage img ++ post)))) := by
  have e1 : yamlSubscript (Yaml.map m) "services" = Except.ok (Yaml.map svcs) := by
    simp only [yamlSubscript]
    rw [hs]
  have e2 : yamlKeys (Yaml.map svcs) = Except.ok (svcs.map Prod.fst) := rfl
  have hparsed :
      validate_docker_compose_yml project_dir (ComposeFile.parsed (Yaml.map m)) rv =
        Except.ok ⟨((svcs.map Prod.fst).filter
            (fun k => !imageMatches (serviceImage svcs k) rv)).map
              (fun k => invalidImageItem k (runnerImage rv) (serviceImage svcs k)),
          false⟩ := by
    simp only [validate_docker_compose_yml, e1, exceptOkBind, e2]
    rw [compose_fold_ok svcs rv (svcs.map Prod.fst) [] hw]
    simp [exceptOkBind]
  refine ⟨rfl, rfl, rfl, rfl, hparsed, ?_, ?_⟩
  · intro hall
    rw [hparsed]
    have hnil : (svcs.map Prod.fst).filter
        (fun k => !imageMatches (serviceImage svcs k) rv) = [] := by
      rw [List.filter_eq_nil_iff]
      intro k hk
      simp [hall k hk]
    rw [hnil]
    rfl
  · intro k img
    refine ⟨rfl, "Invalid image for service *" ++ (k ++ "*: expected *"),
      "* got *", "*.", ?_⟩
    simp [invalidImageItem, String.append_assoc]

/-- C6 (witness): the spec's image-tag example — one service with image
`wrong:1.0` against runner version `24.1` yields exactly one ERROR naming
both strings, and a matching service yields none. -/
theorem compose_validator_witness :
    validate_docker_compose_yml "proj"
        (ComposeFile.parsed (Yaml.map
          [("services", Yaml.map [("web", Yaml.map [("image", Yaml.str "wrong:1.0")])])]))
        "24.1" =
      Except.ok ⟨[invalidImageItem "web" (runnerImage "24.1")
        (some (Yaml.str "wrong:1.0"))], false⟩ ∧
    validate_docker_compose_yml "proj"
        (ComposeFile.parsed (Yaml.map
          [("services", Yaml.map [("web", Yaml.map
            [("image", Yaml.str "cloudblueconnect/connect-extension-runner:24.1")])])]))
        "24.1" =
      Except.ok ⟨[], false⟩ ∧
    validate_docker_compose_yml "proj" ComposeFile.absent "24.1" =
      Except.ok ⟨[composeMissingItem "proj"], false⟩ ∧
    validate_docker_compose_yml "proj" ComposeFile.unparsable "24.1" =
      Except.ok ⟨[composeInvalidItem], false⟩ := by
  have h1 := compose_validator "proj" "24.1"
    [("services", Yaml.map [("web", Yaml.map [("image", Yaml.str "wrong:1.0")])])]
    [("web", Yaml.map [("image", Yaml.str "wrong:1.0")])]
    rfl
    (by
      intro k hk
      have hkw : k = "web" := by simpa using hk
      subst hkw
      exact ⟨[("image", Yaml.str "wrong:1.0")], rfl⟩)
  have h2 := compose_validator "proj" "24.1"
    [("services", Yaml.map [("web", Yaml.map
      [("image", Yaml.str "cloudblueconnect/connect-extension-runner:24.1")])])]
    [("web", Yaml.map [("image", Yaml.str "cloudblueconnect/connect-extension-runner:24.1")])]
    rfl
    (by
      intro k hk
      have hkw : k = "web" := by simpa using hk
      subst hkw
      exact ⟨[("image", Yaml.str "cloudblueconnect/connect-extension-runner:24.1")], rfl⟩)
  refine ⟨?_, ?_, h1.1, h1.2.2.1⟩
  · have hp := h1.2.2.2.2.1
    rw [hp]
    rfl
  · apply h2.2.2.2.2.2.1
    intro k hk
    have hkw : k = "web" := by simpa using hk
    subst hkw
    rfl

/-- C8: when `docker-compose.yml` exists and parses but the parsed value is
not a mapping containing a `services` key (for example an empty file, which
parses to `None`), the unguarded `data['services']` lookup raises past the
validator instead of producing a result. -/
theorem compose_services_lookup_escapes (project_dir rv : String) (data : Yaml)
    (h : ∀ entries, data = Yaml.map entries → entries.lookup "services" = Option.none) :
    ∃ e, validate_docker_compose_yml project_dir (ComposeFile.parsed data) rv =
      Except.error e := by
  cases data with
  | null => exact ⟨.typeError, rfl⟩
  | str s => exact ⟨.typeError, rfl⟩
  | seq l => exact ⟨.typeError, rfl⟩
  | map entries =>
    refine ⟨.keyError "services", ?_⟩
    have hnone := h entries rfl
    have e1 : yamlSubscript (Yaml.map entries) "services" =
        Except.error (PyErr.keyError "services") := by
      simp only [yamlSubscript]
      rw [hnone]
    simp only [validate_docker_compose_yml, e1, exceptErrBind]

/-- C8 (witness): an empty compose file (parsed to `None`) makes the
validator raise. -/
theorem compose_services_lookup_escapes_witness :
    ∃ e, validate_docker_compose_yml "proj" (ComposeFile.parsed Yaml.null) "24.1" =
      Except.error e :=
  compose_services_lookup_escapes "proj" "24.1" Yaml.null
    (fun _ he => nomatch he)

/-! ## C7: the web-app `ui` checks -/

theorem uiForestSize_append (a b : List UiItem) :
    uiForestSize (a ++ b) = uiForestSize a + uiForestSize b := by
  induction a with
  | nil => simp [uiForestSize]
  | cons x xs ih => simp [uiForestSize, ih]; omega

theorem uiForestSize_reverse (a : List UiItem) :
    uiForestSize a.reverse = uiForestSize a := by
  induction a with
  | nil => rfl
  | cons x xs ih =>
    simp [List.reverse_cons, uiForestSize_append, uiForestSize, ih]
    omega

theorem uiForestUrlsOk_append (a b : List UiItem) :
    uiForestUrlsOk (a ++ b) = (uiForestUrlsOk a && uiForestUrlsOk b) := by
  induction a with
  | nil => simp [uiForestUrlsOk]
  | cons x xs ih => simp [uiForestUrlsOk, ih, Bool.and_assoc]

theorem uiForestUrlsOk_reverse (a : List UiItem) :
    uiForestUrlsOk a.reverse = uiForestUrlsOk a := by
  induction a with
  | nil => rfl
  | cons x xs ih =>
    simp [List.reverse_cons, uiForestUrlsOk_append, uiForestUrlsOk, ih,
      Bool.and_comm]

theorem uiForestHasMissingFile_append (files : List String) (a b : List UiItem) :
    uiForestHasMissingFile files (a ++ b) =
      (uiForestHasMissingFile files a || uiForestHasMissingFile files b) := by
  induction a with
  | nil => simp [uiForestHasMissingFile]
  | cons x xs ih => simp [uiForestHasMissingFile, ih, Bool.or_assoc]

theorem uiForestHasMissingFile_reverse (files : List String) (a : List UiItem) :
    uiForestHasMissingFile files a.reverse = uiForestHasMissingFile files a := by
  induction a with
  | nil => rfl
  | cons x xs ih =>
    simp [List.reverse_cons, uiForestHasMissingFile_append,
      uiForestHasMissingFile, ih, Bool.or_comm]

theorem walkUiItems_spec (files : List String) :
    ∀ (n : Nat) (stack : List UiItem) (missed : List String),
      uiForestSize stack = n →
      ((uiForestUrlsOk stack = false →
        ∃ lab, walkUiItems files stack missed = Except.error lab) ∧
       (uiForestUrlsOk stack = true →
        ∃ extra, walkUiItems files stack missed = Except.ok (missed ++ extra) ∧
          (extra = [] ↔ uiForestHasMissingFile files stack = false))) := by
  intro n
  induction n using Nat.strong_induction_on with
  | _ n ih =>
    intro stack missed hn
    match stack with
    | [] =>
      constructor
      · intro h
        simp [uiForestUrlsOk] at h
      · intro _
        refine ⟨[], ?_, ?_⟩
        · simp [walkUiItems]
        · simp [uiForestHasMissingFile]
    | UiItem.node lab url cs :: rest =>
      cases url with
      | none =>
        constructor
        · intro _
          exact ⟨lab, by simp [walkUiItems]⟩
        · intro h
          simp [uiForestUrlsOk, uiItemUrlsOk] at h
      | some u =>
        have hsize : uiForestSize (cs.reverse ++ rest) < n := by
          subst hn
          simp [uiForestSize_append, uiForestSize_reverse, uiForestSize, uiItemSize]
        have hexp : uiForestUrlsOk (UiItem.node lab (some u) cs :: rest) =
            (uiForestUrlsOk cs && uiForestUrlsOk rest) := by
          simp [uiForestUrlsOk, uiItemUrlsOk]
        have hexp2 : uiForestUrlsOk (cs.reverse ++ rest) =
            (uiForestUrlsOk cs && uiForestUrlsOk rest) := by
          simp [uiForestUrlsOk_append, uiForestUrlsOk_reverse]
        have hm2 : uiForestHasMissingFile files (cs.reverse ++ rest) =
            (uiForestHasMissingFile files cs || uiForestHasMissingFile files rest) := by
          simp [uiForestHasMissingFile_append, uiForestHasMissingFile_reverse]
        have hhead : uiForestHasMissingFile files (UiItem.node lab (some u) cs :: rest) =
            ((!files.contains (lastSegment u) || uiForestHasMissingFile files cs) ||
              uiForestHasMissingFile files rest) := rfl
        cases hmiss : files.contains (lastSegment u) with
        | true =>
          have hmem : lastSegment u ∈ files := by simpa using hmiss
          have hunf : walkUiItems files (UiItem.node lab (some u) cs :: rest) missed =
              walkUiItems files (cs.reverse ++ rest) missed := by
            simp [walkUiItems, hmem]
          have ih' := ih _ hsize (cs.reverse ++ rest) missed rfl
          constructor
          · intro hfail
            rw [hexp] at hfail
            obtain ⟨lab', hw⟩ := ih'.1 (by rw [hexp2]; exact hfail)
            exact ⟨lab', by rw [hunf]; exact hw⟩
          · intro hok
            rw [hexp] at hok
            obtain ⟨extra, hw, hiff⟩ := ih'.2 (by rw [hexp2]; exact hok)
            refine ⟨extra, by rw [hunf]; exact hw, ?_⟩
            have hsame : uiForestHasMissingFile files
                (UiItem.node lab (some u) cs :: rest) =
                uiForestHasMissingFile files (cs.reverse ++ rest) := by
              rw [hhead, hm2, hmiss]
              simp
            rw [hsame]
            exact hiff
        | false =>
          have hnm : lastSegment u ∉ files := by simpa using hmiss
          have hunf : walkUiItems files (UiItem.node lab (some u) cs :: rest) missed =
              walkUiItems files (cs.reverse ++ rest) (missed ++ [u]) := by
            simp [walkUiItems, hnm]
          have ih' := ih _ hsize (cs.reverse ++ rest) (missed ++ [u]) rfl
          constructor
          · intro hfail
            rw [hexp] at hfail
            obtain ⟨lab', hw⟩ := ih'.1 (by rw [hexp2]; exact hfail)
            exact ⟨lab', by rw [hunf]; exact hw⟩
          · intro hok
            rw [hexp] at hok
            obtain ⟨extra, hw, _⟩ := ih'.2 (by rw [hexp2]; exact hok)
            refine ⟨u :: extra, ?_, ?_⟩
            · rw [hunf, hw]
              simp
            · constructor
              · intro hcontra
                cases hcontra
              · intro hcontra
                rw [hhead, hmiss] at hcontra
                simp at hcontra

/-- C7: for a `webapp` class passing the wrapper and router checks and a
descriptor with a `ui` section, the validator halts with a single ERROR as
soon as the walked tree contains a node without a `url`; when every node
has a `url` it checks each url's final path segment against the files of
`static_root`, collecting all missing urls into exactly one halting ERROR
(not one per missing file), and produces no message when nothing is
missing. -/
theorem webapp_ui_validation (cls : WebAppClass) (uiMap : List (String × UiItem))
    (hw : cls.wrapped_in_web_app = true) (hr : cls.has_router_function = true) :
    (uiForestUrlsOk (uiMap.map Prod.snd) = false →
      ∃ lab, validate_webapp_extension (some cls) (some uiMap) =
        ⟨[missingUrlItem lab], true⟩ ∧ (missingUrlItem lab).severity = "ERROR") ∧
    (uiForestUrlsOk (uiMap.map Prod.snd) = true →
      uiForestHasMissingFile cls.static_files (uiMap.map Prod.snd) = true →
      ∃ missed, missed ≠ [] ∧
        validate_webapp_extension (some cls) (some uiMap) =
          ⟨[missingFilesItem missed], true⟩ ∧
        (missingFilesItem missed).severity = "ERROR") ∧
    (uiForestUrlsOk (uiMap.map Prod.snd) = true →
      uiForestHasMissingFile cls.static_files (uiMap.map Prod.snd) = false →
      validate_webapp_extension (some cls) (some uiMap) = ⟨[], false⟩) := by
  have hred : validate_webapp_extension (some cls) (some uiMap) =
      (match walkUiItems cls.static_files ((uiMap.map Prod.snd).reverse) [] with
       | .error lab => ⟨[missingUrlItem lab], true⟩
       | .ok [] => ⟨[], false⟩
       | .ok (u :: us) => ⟨[missingFilesItem (u :: us)], true⟩) := by
    simp [validate_webapp_extension, hw, hr]
  have hspec := walkUiItems_spec cls.static_files
    (uiForestSize ((uiMap.map Prod.snd).reverse)) ((uiMap.map Prod.snd).reverse) [] rfl
  refine ⟨?_, ?_, ?_⟩
  · intro hfail
    obtain ⟨lab, hwk⟩ := hspec.1 (by rw [uiForestUrlsOk_reverse]; exact hfail)
    refine ⟨lab, ?_, rfl⟩
    rw [hred, hwk]
  · intro hok hmissF
    obtain ⟨extra, hwk, hiff⟩ :=
      hspec.2 (by rw [uiForestUrlsOk_reverse]; exact hok)
    have hne : extra ≠ [] := by
      intro hnil
      have := hiff.mp hnil
      rw [uiForestHasMissingFile_reverse] at this
      rw [this] at hmissF
      cases hmissF
    cases hex : extra with
    | nil => exact absurd hex hne
    | cons u us =>
      refine ⟨u :: us, by simp, ?_, rfl⟩
      rw [hred, hwk, hex]
      rfl
  · intro hok hnomiss
    obtain ⟨extra, hwk, hiff⟩ :=
      hspec.2 (by rw [uiForestUrlsOk_reverse]; exact hok)
    have hex : extra = [] := by
      apply hiff.mpr
      rw [uiForestHasMissingFile_reverse]
      exact hnomiss
    rw [hred, hwk, hex]
    rfl

/-- C7 (witness): with `static_root` containing only `a.html` — a node
without a `url` halts with its single ERROR; a tree whose child references
`missing.html` halts with one collected ERROR; a tree whose only url
resolves to `a.html` passes. -/
theorem webapp_ui_validation_witness :
    (∃ lab, validate_webapp_extension (some ⟨true, true, ["a.html"]⟩)
        (some [("settings", UiItem.node (some "S") Option.none [])]) =
      ⟨[missingUrlItem lab], true⟩ ∧ (missingUrlItem lab).severity = "ERROR") ∧
    (∃ missed, missed ≠ [] ∧
      validate_webapp_extension (some ⟨true, true, ["a.html"]⟩)
        (some [("settings", UiItem.node (some "S") (some "/static/a.html")
            [UiItem.node (some "C") (some "/static/missing.html") []])]) =
        ⟨[missingFilesItem missed], true⟩ ∧
      (missingFilesItem missed).severity = "ERROR") ∧
    validate_webapp_extension (some ⟨true, true, ["a.html"]⟩)
        (some [("settings", UiItem.node (some "S") (some "/static/a.html") [])]) =
      ⟨[], false⟩ := by
  refine ⟨?_, ?_, ?_⟩
  · exact (webapp_ui_validation ⟨true, true, ["a.html"]⟩
      [("settings", UiItem.node (some "S") Option.none [])] rfl rfl).1 rfl
  · exact (webapp_ui_validation ⟨true, true, ["a.html"]⟩
      [("settings", UiItem.node (some "S") (some "/static/a.html")
        [UiItem.node (some "C") (some "/static/missing.html") []])] rfl rfl).2.1
      rfl (by decide)
  · exact (webapp_ui_validation ⟨true, true, ["a.html"]⟩
      [("settings", UiItem.node (some "S") (some "/static/a.html") [])] rfl rfl).2.2
      rfl (by decide)

/-! ## C9: the extension-class validator reads only the first class's descriptor -/

theorem subclassErrorItem_shape {a b : LoadedClass}
    (h : loadedClassShape a = loadedClassShape b) :
    subclassErrorItem a = subclassErrorItem b := by
  have h1 : a.type_name = b.type_name := congrArg (fun t => t.1) h
  have h2 : a.class_name = b.class_name := congrArg (fun t => t.2.1) h
  unfold subclassErrorItem
  rw [h1, h2]

theorem find_fail_congr : ∀ (l l' : List LoadedClass),
    l.map loadedClassShape = l'.map loadedClassShape →
    ((l.find? (fun c => !c.subclass_ok)).map subclassErrorItem =
      (l'.find? (fun c => !c.subclass_ok)).map subclassErrorItem) ∧
    (l.find? (fun c => !c.subclass_ok) = Option.none ↔
      l'.find? (fun c => !c.subclass_ok) = Option.none) := by
  intro l
  induction l with
  | nil =>
    intro l' h
    cases l' with
    | nil => simp
    | cons b bs => simp at h
  | cons a as ih =>
    intro l' h
    cases l' with
    | nil => simp at h
    | cons b bs =>
      simp only [List.map_cons, List.cons.injEq] at h
      obtain ⟨hab, hrest⟩ := h
      have hok : a.subclass_ok = b.subclass_ok := congrArg (fun t => t.2.2) hab
      cases hA : a.subclass_ok with
      | true =>
        have hB : b.subclass_ok = true := by rw [← hok]; exact hA
        have ea : (a :: as).find? (fun c => !c.subclass_ok) =
            as.find? (fun c => !c.subclass_ok) := by
          apply List.find?_cons_of_neg
          simp [hA]
        have eb : (b :: bs).find? (fun c => !c.subclass_ok) =
            bs.find? (fun c => !c.subclass_ok) := by
          apply List.find?_cons_of_neg
          simp [hB]
        rw [ea, eb]
        exact ih bs hrest
      | false =>
        have hB : b.subclass_ok = false := by rw [← hok]; exact hA
        have ea : (a :: as).find? (fun c => !c.subclass_ok) = some a := by
          apply List.find?_cons_of_pos
          simp [hA]
        have eb : (b :: bs).find? (fun c => !c.subclass_ok) = some b := by
          apply List.find?_cons_of_pos
          simp [hB]
        rw [ea, eb]
        constructor
        · simp [subclassErrorItem_shape hab]
        · simp

/-- C9: `validate_extension_class` loads a descriptor only from the first
class in `context['extension_classes']` iteration order.  Its result is
unchanged when the remaining classes' descriptors are replaced arbitrarily
(so `get_descriptor()` is never consulted on them), and when every class
passes its subclass check the WARNING list is computed solely from the
first class's descriptor keys and the patched `descriptor` is exactly the
first class's descriptor (or the halting load error when that descriptor is
missing). -/
theorem extension_class_first_descriptor (c1 : LoadedClass)
    (rest rest' : List LoadedClass) (keys : List String)
    (hshape : rest.map loadedClassShape = rest'.map loadedClassShape) :
    (validate_extension_class (c1 :: rest) = validate_extension_class (c1 :: rest')) ∧
    ((∀ c ∈ c1 :: rest, c.subclass_ok = true) → c1.descriptor = some keys →
      validate_extension_class (c1 :: rest) =
        Except.ok ⟨(["variables", "capabilities", "schedulables"].filter
            (fun k => keys.contains k)).map descriptorKeyWarning, false, some keys⟩) ∧
    ((∀ c ∈ c1 :: rest, c.subclass_ok = true) → c1.descriptor = Option.none →
      validate_extension_class (c1 :: rest) =
        Except.ok ⟨[descriptorLoadErrorItem], true, Option.none⟩) := by
  refine ⟨?_, ?_, ?_⟩
  · cases h1 : c1.subclass_ok with
    | false =>
      have ea : (c1 :: rest).find? (fun c => !c.subclass_ok) = some c1 := by
        apply List.find?_cons_of_pos
        simp [h1]
      have eb : (c1 :: rest').find? (fun c => !c.subclass_ok) = some c1 := by
        apply List.find?_cons_of_pos
        simp [h1]
      unfold validate_extension_class
      rw [ea, eb]
    | true =>
      have ea : (c1 :: rest).find? (fun c => !c.subclass_ok) =
          rest.find? (fun c => !c.subclass_ok) := by
        apply List.find?_cons_of_neg
        simp [h1]
      have eb : (c1 :: rest').find? (fun c => !c.subclass_ok) =
          rest'.find? (fun c => !c.subclass_ok) := by
        apply List.find?_cons_of_neg
        simp [h1]
      obtain ⟨hmap, hnone⟩ := find_fail_congr rest rest' hshape
      cases hfr : rest.find? (fun c => !c.subclass_ok) with
      | some a =>
        cases hfr' : rest'.find? (fun c => !c.subclass_ok) with
        | none =>
          rw [hfr, hfr'] at hmap
          cases hmap
        | some b =>
          rw [hfr, hfr'] at hmap
          have herr : subclassErrorItem a = subclassErrorItem b := by
            simpa using hmap
          unfold validate_extension_class
          rw [ea, eb, hfr, hfr']
          simp [herr]
      | none =>
        have hfr' : rest'.find? (fun c => !c.subclass_ok) = Option.none :=
          hnone.mp hfr
        unfold validate_extension_class
        rw [ea, eb, hfr, hfr']
        rfl
  · intro hall hk
    have ea : (c1 :: rest).find? (fun c => !c.subclass_ok) = Option.none := by
      rw [List.find?_eq_none]
      intro c hc
      simp [hall c hc]
    unfold validate_extension_class
    rw [ea]
    simp only [List.head?_cons]
    rw [hk]
  · intro hall hk
    have ea : (c1 :: rest).find? (fun c => !c.subclass_ok) = Option.none := by
      rw [List.find?_eq_none]
      intro c hc
      simp [hall c hc]
    unfold validate_extension_class
    rw [ea]
    simp only [List.head?_cons]
    rw [hk]

/-- C9 (witness): two loaded classes — replacing the second class's
descriptor does not change the result, and the WARNING list and patched
descriptor come from the first class's descriptor alone. -/
theorem extension_class_first_descriptor_witness :
    validate_extension_class
        [⟨ExtensionType.extension, "MyExt", true, some ["variables"]⟩,
         ⟨ExtensionType.webapp, "MyApp", true, some ["capabilities"]⟩] =
      validate_extension_class
        [⟨ExtensionType.extension, "MyExt", true, some ["variables"]⟩,
         ⟨ExtensionType.webapp, "MyApp", true, Option.none⟩] ∧
    validate_extension_class
        [⟨ExtensionType.extension, "MyExt", true, some ["variables"]⟩,
         ⟨ExtensionType.webapp, "MyApp", true, some ["capabilities"]⟩] =
      Except.ok ⟨(["variables", "capabilities", "schedulables"].filter
          (fun k => (["variables"] : List String).contains k)).map descriptorKeyWarning,
        false, some ["variables"]⟩ := by
  constructor
  · exact (extension_class_first_descriptor
      ⟨ExtensionType.extension, "MyExt", true, some ["variables"]⟩
      [⟨ExtensionType.webapp, "MyApp", true, some ["capabilities"]⟩]
      [⟨ExtensionType.webapp, "MyApp", true, Option.none⟩]
      [] rfl).1
  · exact (extension_class_first_descriptor
      ⟨ExtensionType.extension, "MyExt", true, some ["variables"]⟩
      [⟨ExtensionType.webapp, "MyApp", true, some ["capabilities"]⟩]
      [⟨ExtensionType.webapp, "MyApp", true, some ["capabilities"]⟩]
      ["variables"] rfl).2.1 (by decide) rfl
